import Mathlib

/-
Verification development for `easysql.py`, a convenience layer over a
relational database client library.  The Python classes `Row`, `RowSet`,
`Executor`, `Table` and `Database` are shallowly embedded below: the lazy
generator backing a `RowSet` becomes an explicit list of not-yet-drawn rows,
raised exceptions become `Option`/`Except` results, and the external
libraries (tablib, sqlalchemy) are modelled by small abstract datatypes that
record exactly the calls the easysql code makes into them.
-/

/-- Python exceptions that the embedded code can raise.  The two distinct
KeyError messages of `Row.__getitem__` get their own constructors so that no
string formatting is needed. -/
inductive PyError where
  | indexError
  | typeError
  | attributeError
  | keyErrorNoField (key : String)
  | keyErrorMultiple (key : String)
  | valueError (msg : String)
  deriving DecidableEq, Repr

/-- True on the two KeyError constructors. -/
def PyError.isKeyError : PyError → Bool
  | PyError.keyErrorNoField _ => true
  | PyError.keyErrorMultiple _ => true
  | _ => false

/-- Python values stored in a row.  `vdatetime iso` models any object with an
`isoformat` method (datetime, date, time), carrying the string its
`isoformat()` call returns. -/
inductive Value where
  | vnone
  | vint (n : Int)
  | vstr (s : String)
  | vbool (b : Bool)
  | vdatetime (iso : String)
  deriving DecidableEq, Repr

/-- Models Python's `hasattr(v, 'isoformat')`. -/
def Value.hasIsoformat : Value → Bool
  | Value.vdatetime _ => true
  | _ => false

/-- Models Python's `v.isoformat()`: defined exactly on values with an
isoformat method. -/
def Value.isoformatStr : Value → Option String
  | Value.vdatetime iso => some iso
  | _ => none

/-- Python list indexing `l[i]`: nonnegative indices from the front, negative
indices from the back, `none` models an IndexError. -/
def pyListGet {α : Type} (l : List α) (i : Int) : Option α :=
  if 0 ≤ i then l.get? i.toNat
  else if (-i).toNat ≤ l.length then l.get? (l.length - (-i).toNat)
  else none

/-- Python's `list.index(k)` on a list of strings: the first index holding
`k`, `none` models the ValueError raised when `k` is absent. -/
def pyIndex (k : String) : List String → Option Nat
  | [] => none
  | x :: xs => if x = k then some 0 else (pyIndex k xs).map (fun n => n + 1)

/-- Python's `list.count(k)` on a list of strings. -/
def pyCount (k : String) : List String → Nat
  | [] => 0
  | x :: xs => (if x = k then 1 else 0) + pyCount k xs

/-- The `Row` class: `_keys`, `_values`, and the `_table` / `_database` back
references (opaque names here; easysql never inspects them). -/
structure Row where
  _keys : List String
  _values : List Value
  _table : Option String
  _database : Option String
  deriving DecidableEq, Repr

/-- Embeds `Row.__init__`: stores the four fields and asserts
`len(self._keys) == len(self._values)`; `none` models the AssertionError. -/
def Row.init (keys : List String) (values : List Value)
    (table database : Option String) : Option Row :=
  if keys.length = values.length then some ⟨keys, values, table, database⟩
  else none

/-- Embeds `Row.__len__`: `len(self._keys)`. -/
def Row.len (r : Row) : Nat := r._keys.length

/-- Embeds `Row.keys()`: the list of column names. -/
def Row.keys (r : Row) : List String := r._keys

/-- Embeds `Row._reduce_datetimes`: `[r.isoformat() if hasattr(r, 'isoformat') else r
for r in input]`. -/
def Row.reduce_datetimes (input : List Value) : List Value :=
  input.map (fun r =>
    match r with
    | Value.vdatetime iso => Value.vstr iso
    | v => v)

/-- Embeds `Row.values(reduce_datetimes=False)`. -/
def Row.values (r : Row) (reduce_datetimes : Bool) : List Value :=
  if reduce_datetimes then Row.reduce_datetimes r._values else r._values

/-- A key given to `Row.__getitem__`: an int or a string. -/
inductive RowKey where
  | idx (i : Int)
  | name (s : String)
  deriving DecidableEq, Repr

/-- Embeds `Row.__getitem__`: index-based lookup returns `self.values()[key]`;
key-based lookup checks `key in self.keys()`, takes
`i = self.keys().index(key)`, raises KeyError on a duplicated key and
otherwise returns `self.values()[i]`. -/
def Row.getItem (r : Row) (key : RowKey) : Except PyError Value :=
  match key with
  | RowKey.idx i =>
      match pyListGet (Row.values r false) i with
      | some v => Except.ok v
      | none => Except.error PyError.indexError
  | RowKey.name k =>
      if k ∈ Row.keys r then
        match pyIndex k (Row.keys r) with
        | some i =>
            if pyCount k (Row.keys r) > 1 then
              Except.error (PyError.keyErrorMultiple k)
            else
              match pyListGet (Row.values r false) (Int.ofNat i) with
              | some v => Except.ok v
              | none => Except.error PyError.indexError
        | none => Except.error (PyError.keyErrorNoField k)
      else Except.error (PyError.keyErrorNoField k)

/-- Embeds `Row.__iter__`: yields `zip(self._keys, self._values)`. -/
def Row.iterPairs (r : Row) : List (String × Value) :=
  r._keys.zip r._values

/-- Embeds `Row.get(key, default=None)`: returns `self[key]`, catching only
KeyError and returning `default` in that case. -/
def Row.get (r : Row) (key : RowKey) (default : Value) : Except PyError Value :=
  match Row.getItem r key with
  | Except.ok v => Except.ok v
  | Except.error e =>
      if PyError.isKeyError e then Except.ok default else Except.error e

/-- Embeds `Row.set(key, value)`: `i = self._keys.index(key); self._values[i] =
value`; the error models the ValueError `list.index` raises on a missing
key. -/
def Row.set (r : Row) (key : String) (value : Value) : Except PyError Row :=
  match pyIndex key r._keys with
  | some i => Except.ok { r with _values := r._values.set i value }
  | none => Except.error (PyError.valueError "key is not in list")

/-- Embeds `Row.save`: a `pass` stub, returns None and changes nothing. -/
def Row.save (r : Row) : Option Bool × Row := (none, r)

/-- Embeds `Row.delete`: a `pass` stub, returns None and changes nothing. -/
def Row.delete (r : Row) : Option Bool × Row := (none, r)

/-- A tablib `Dataset`, reduced to what easysql uses: optional headers and a
list of data rows. -/
structure Dataset where
  headers : Option (List String)
  rows : List (List Value)
  deriving DecidableEq, Repr

/-- Embeds `tablib.Dataset()`. -/
def Dataset.new : Dataset := ⟨none, []⟩

/-- Embeds `tablib.Dataset(headers=hs)`. -/
def Dataset.withHeaders (hs : List String) : Dataset := ⟨some hs, []⟩

/-- Embeds `data.headers = hs`. -/
def Dataset.setHeaders (d : Dataset) (hs : List String) : Dataset :=
  { d with headers := some hs }

/-- Embeds `data.append(row)`. -/
def Dataset.append (d : Dataset) (row : List Value) : Dataset :=
  { d with rows := d.rows ++ [row] }

/-- Embeds `Row.dataset`: a Dataset with `self.keys()` as headers and
`self.values(reduce_datetimes=True)` appended as its single row. -/
def Row.dataset (r : Row) : Dataset :=
  Dataset.append (Dataset.withHeaders (Row.keys r)) (Row.values r true)

/-- Embeds `Row.export(format, **kwargs)`: `self.dataset.export(format)`.  The
serialization itself is done by tablib; the observable content of the call is
the format together with the dataset handed to it. -/
def Row.export (r : Row) (format : String) : String × Dataset :=
  (format, Row.dataset r)

/-- The `RowSet` class.  The backing generator `_pre_rows` becomes the list
of rows it has not yielded yet; `_all_rows` is the cache; `pending` the flag
of the same name. -/
structure RowSet (α : Type) where
  _pre_rows : List α
  _all_rows : List α
  pending : Bool
  deriving DecidableEq, Repr

/-- Embeds `RowSet.__init__(rows)`: empty cache, `pending = True`. -/
def RowSet.init {α : Type} (rows : List α) : RowSet α := ⟨rows, [], true⟩

/-- Embeds `RowSet.__len__`: `len(self._all_rows)`. -/
def RowSet.len {α : Type} (s : RowSet α) : Nat := s._all_rows.length

/-- Embeds `RowSet.__next__`: draws the next row from `_pre_rows` and appends it to
`_all_rows`; on StopIteration sets `pending = False` and re-raises (`none`
models the raised StopIteration). -/
def RowSet.next {α : Type} (s : RowSet α) : Option α × RowSet α :=
  match s._pre_rows with
  | [] => (none, { s with pending := false })
  | r :: rs => (some r, ⟨rs, s._all_rows ++ [r], s.pending⟩)

/-- The loop guard of `RowSet.__getitem__`:
`sli.stop is None or len(self) < sli.stop`. -/
def RowSet.stopCond {α : Type} (s : RowSet α) (stop : Option Int) : Bool :=
  match stop with
  | none => true
  | some st => decide ((RowSet.len s : Int) < st)

/-- The while-loop of `RowSet.__getitem__`: as long as the guard holds, call
`next(self)` and break on StopIteration.  Each branch is the corresponding
branch of `RowSet.next` (see `RowSet.fill_eq_next_step`). -/
def RowSet.fill {α : Type} (s : RowSet α) (stop : Option Int) : RowSet α :=
  if RowSet.stopCond s stop then
    match hp : s._pre_rows with
    | [] => { s with pending := false }
    | r :: rs => RowSet.fill ⟨rs, s._all_rows ++ [r], s.pending⟩ stop
  else s
termination_by s._pre_rows.length
decreasing_by
simp only [hp, List.length_cons]
omega

/-- Embeds `RowSet.__getitem__` with an int key: convert to `slice(key, key + 1)`,
run the fill loop, then return `self._all_rows[key]` (`none` models the
IndexError Python raises there). -/
def RowSet.getItemInt {α : Type} (s : RowSet α) (key : Int) : Option α × RowSet α :=
  let s1 := RowSet.fill s (some (key + 1))
  (pyListGet s1._all_rows key, s1)

/-- Clamp a Python slice endpoint into `[0, len]`. -/
def pySliceIndex (len : Nat) (i : Int) : Nat :=
  if i < 0 then (max ((len : Int) + i) 0).toNat else (min i (len : Int)).toNat

/-- Python list slicing `l[start:stop]` (unit step, as easysql uses it). -/
def pySliceList {α : Type} (l : List α) (start stop : Option Int) : List α :=
  let a := pySliceIndex l.length (start.getD 0)
  let b := pySliceIndex l.length (stop.getD (Int.ofNat l.length))
  (l.take b).drop a

/-- Embeds `RowSet.__getitem__` with a slice key: run the fill loop with the
slice's stop, then return `RowSet(iter(self._all_rows[key]))` as a fresh
RowSet, alongside the updated receiver. -/
def RowSet.getItemSlice {α : Type} (s : RowSet α) (start stop : Option Int) :
    RowSet α × RowSet α :=
  let s1 := RowSet.fill s stop
  (RowSet.init (pySliceList s1._all_rows start stop), s1)

/-- The loop body of `RowSet.__iter__`, at loop counter `i`: while `i <
len(self)` it yields `self[i]` (for `i < len(self)` the `__getitem__`
while-loop makes no progress and `_all_rows[i]` comes straight from the
cache, see `RowSet.getItemInt_lt`); afterwards it yields `next(self)` until
StopIteration (each branch of the inner match is the corresponding branch of
`RowSet.next`). -/
def RowSet.iterFrom {α : Type} (s : RowSet α) (i : Nat) : List α × RowSet α :=
  if h : i < s._all_rows.length then
    let t := RowSet.iterFrom s (i + 1)
    (s._all_rows.get ⟨i, h⟩ :: t.1, t.2)
  else
    match hp : s._pre_rows with
    | [] => ([], { s with pending := false })
    | r :: rs =>
        let t := RowSet.iterFrom ⟨rs, s._all_rows ++ [r], s.pending⟩ (i + 1)
        (r :: t.1, t.2)
termination_by s._pre_rows.length + (s._all_rows.length - i)
decreasing_by
· omega
· simp only [hp, List.length_cons, List.length_append, List.length_nil]
  omega

/-- Embeds `RowSet.__iter__`, run to completion (`list(self)`): the yielded rows and
the final state. -/
def RowSet.iter {α : Type} (s : RowSet α) : List α × RowSet α :=
  RowSet.iterFrom s 0

/-- Embeds `RowSet.all()`: `list(self); return self`. -/
def RowSet.all {α : Type} (s : RowSet α) : RowSet α :=
  (RowSet.iter s).2

/-- Embeds `RowSet.first()`: `self[0]` (`none` models the IndexError on an empty
RowSet). -/
def RowSet.first {α : Type} (s : RowSet α) : Option α × RowSet α :=
  RowSet.getItemInt s 0

/-- Embeds `RowSet.one()`: raises ValueError when `len(list(self)) > 1`, otherwise
returns `self.first()` (IndexError when that fails). -/
def RowSet.one {α : Type} (s : RowSet α) : Except PyError α × RowSet α :=
  let t := RowSet.iter s
  if t.1.length > 1 then
    (Except.error (PyError.valueError "Contains more than one row."), t.2)
  else
    match RowSet.first t.2 with
    | (some r, s2) => (Except.ok r, s2)
    | (none, s2) => (Except.error PyError.indexError, s2)

/-- Embeds `RowSet.scalar()`: `self.first()[0]`; IndexError when the RowSet is
empty, otherwise whatever `Row.__getitem__ 0` gives on the first row. -/
def RowSet.scalar (s : RowSet Row) : Except PyError Value × RowSet Row :=
  match RowSet.first s with
  | (none, s1) => (Except.error PyError.indexError, s1)
  | (some r, s1) => (Row.getItem r (RowKey.idx 0), s1)

/-- Embeds `RowSet.dataset`: a fresh tablib Dataset; `self[0].keys()` become the
headers (on IndexError the empty dataset is returned as is); then every row
of `for row in self` is appended as `row.values(reduce_datetimes=True)`. -/
def RowSet.dataset (s : RowSet Row) : Dataset × RowSet Row :=
  match RowSet.getItemInt s 0 with
  | (none, s1) => (Dataset.new, s1)
  | (some r0, s1) =>
      let d := Dataset.setHeaders Dataset.new (Row.keys r0)
      let t := RowSet.iter s1
      (t.1.foldl (fun acc r => Dataset.append acc (Row.values r true)) d, t.2)

/-- Embeds `RowSet.export(format, **kwargs)`: `self.dataset.export(format)`; as with
`Row.export` the tablib serialization is external and the observable content
is the format and the dataset. -/
def RowSet.export (s : RowSet Row) (format : String) :
    (String × Dataset) × RowSet Row :=
  let t := RowSet.dataset s
  ((format, t.1), t.2)

/-- A sqlalchemy `Column`, reduced to its name. -/
structure SaColumn where
  name : String
  deriving DecidableEq, Repr

/-- A sqlalchemy `Table`: name and columns. -/
structure SaTable where
  name : String
  columns : List SaColumn
  deriving DecidableEq, Repr

/-- An argument passed to `Table.select`: a plain string, a column object, or
a table object. -/
inductive SelectArg where
  | strArg (s : String)
  | colArg (c : SaColumn)
  | tableArg (t : SaTable)
  deriving DecidableEq, Repr

/-- The sqlalchemy clauses easysql builds: `table.insert()`,
`table.delete()`, `table.update()`, `select([...])`, `.values(**kwargs)` and
`.where(clause)` (where-conditions stay opaque strings). -/
inductive SqlClause where
  | insertStmt (t : SaTable)
  | deleteStmt (t : SaTable)
  | updateStmt (t : SaTable)
  | selectStmt (args : List SelectArg)
  | withValues (base : SqlClause) (vals : List (String × Value))
  | whereClause (base : SqlClause) (cond : String)
  deriving DecidableEq, Repr

/-- Models `str(clause).split()[0]`: the first word of the SQL that
sqlalchemy renders for the clause. -/
def SqlClause.firstWord : SqlClause → String
  | SqlClause.insertStmt _ => "INSERT"
  | SqlClause.deleteStmt _ => "DELETE"
  | SqlClause.updateStmt _ => "UPDATE"
  | SqlClause.selectStmt _ => "SELECT"
  | SqlClause.withValues base _ => SqlClause.firstWord base
  | SqlClause.whereClause base _ => SqlClause.firstWord base

/-- The `Database` class, reduced to the state easysql itself manages: the
URL and the `open` flag (renamed `isOpen`, `open` being a Lean keyword).
Engine, connection and metadata live in sqlalchemy. -/
structure DatabaseState where
  db_url : String
  isOpen : Bool
  deriving DecidableEq, Repr

/-- The record of a statement submitted to the database connection by
`Database.execute`; running it is external. -/
structure Executed where
  statement : SqlClause
  deriving DecidableEq, Repr

/-- Embeds `Database.execute(statement)`: `self._conn.execute(statement)`.  The
observable content is the statement handed to the connection. -/
def DatabaseState.execute (_db : DatabaseState) (statement : SqlClause) : Executed :=
  ⟨statement⟩

/-- Embeds `Database.bulk_query`: a `pass` stub, returns None and changes
nothing. -/
def DatabaseState.bulk_query (db : DatabaseState) : Option Unit × DatabaseState :=
  (none, db)

/-- The `Table` class: the wrapped sqlalchemy table and the database. -/
structure Table where
  _table : SaTable
  _database : DatabaseState
  deriving DecidableEq, Repr

/-- Embeds `Table.join`: a `pass` stub, returns None and changes nothing. -/
def Table.join (tb : Table) : Option Unit × Table := (none, tb)

/-- The `Executor` class: `__init__` stores the table, the first word of the
rendered clause, and the clause itself. -/
structure Executor where
  _table : Table
  _name : String
  _pre : SqlClause
  deriving DecidableEq, Repr

/-- Embeds `Executor.__init__(table, clause)`. -/
def Executor.init (table : Table) (clause : SqlClause) : Executor :=
  ⟨table, SqlClause.firstWord clause, clause⟩

/-- Embeds `Executor.where(clause)` (`where` is a Lean keyword): wraps `_pre` in a
where-clause and returns self. -/
def Executor.whereOp (e : Executor) (clause : String) : Executor :=
  { e with _pre := SqlClause.whereClause e._pre clause }

/-- Embeds `Executor.execute()`: `self._table.database.execute(self._pre)`. -/
def Executor.execute (e : Executor) : Executed :=
  DatabaseState.execute e._table._database e._pre

/-- Embeds `Table.insert(*args, **kwargs)`: builds `self._table.insert()`; with
keyword arguments it executes `command.values(**kwargs)`; otherwise it
evaluates `args[0]` (IndexError when `args` is empty) and then calls
`self._database.execute(command, args[0])` — but `Database.execute` accepts a
single statement, so that call raises TypeError. -/
def Table.insert (tb : Table) (args : List Value) (kwargs : List (String × Value)) :
    Except PyError Executed :=
  let command := SqlClause.insertStmt tb._table
  if kwargs.length > 0 then
    Except.ok (DatabaseState.execute tb._database (SqlClause.withValues command kwargs))
  else
    match args.get? 0 with
    | none => Except.error PyError.indexError
    | some _ => Except.error PyError.typeError

/-- Embeds `Table.delete(**kwargs)`: an Executor over
`self._table.delete().values(**kwargs)`. -/
def Table.delete (tb : Table) (kwargs : List (String × Value)) : Executor :=
  Executor.init tb (SqlClause.withValues (SqlClause.deleteStmt tb._table) kwargs)

/-- Embeds `Table.update(**kwargs)`: an Executor over
`self._table.update().values(**kwargs)`. -/
def Table.update (tb : Table) (kwargs : List (String × Value)) : Executor :=
  Executor.init tb (SqlClause.withValues (SqlClause.updateStmt tb._table) kwargs)

/-- The list comprehension `[a.gg if isinstance(a, str) else a for a in
args]` in `Table.select`: a `str` has no attribute `gg`, so the first string
argument raises AttributeError; other arguments pass through unchanged. -/
def selectConvert : List SelectArg → Except PyError (List SelectArg)
  | [] => Except.ok []
  | SelectArg.strArg _ :: _ => Except.error PyError.attributeError
  | a :: rest => (selectConvert rest).map (fun l => a :: l)

/-- Embeds `Table.select(*args)`: with no arguments an Executor over
`select([self._table])`; otherwise converts the arguments (see
`selectConvert`) and wraps `select(array)`. -/
def Table.select (tb : Table) (args : List SelectArg) : Except PyError Executor :=
  if args.length = 0 then
    Except.ok (Executor.init tb (SqlClause.selectStmt [SelectArg.tableArg tb._table]))
  else
    match selectConvert args with
    | Except.ok array => Except.ok (Executor.init tb (SqlClause.selectStmt array))
    | Except.error e => Except.error e

/-- Embeds `Database.query(query, **params)`: executes the textual query on the
connection (external) and wraps the resulting cursor as
`RowSet(Row(cursor.keys(), r, None, self) for r in cursor)`.  The cursor is
given by its keys and its list of raw rows; the generator argument of the
RowSet pairs each raw row with the cursor keys, no table, and the database
(an opaque back reference, identified here by its URL). -/
def DatabaseState.query (db : DatabaseState) (cursorKeys : List String)
    (cursorRows : List (List Value)) : RowSet Row :=
  RowSet.init (cursorRows.map (fun r => Row.mk cursorKeys r none (some db.db_url)))

/-- The operations a client can perform on a `RowSet` (the format argument
of `export` is a string). -/
inductive RowSetOp where
  | iterOp
  | nextOp
  | getItemOp (key : Int)
  | getSliceOp (start stop : Option Int)
  | allOp
  | firstOp
  | oneOp
  | scalarOp
  | datasetOp
  | exportOp (format : String)
  deriving DecidableEq, Repr

deriving instance DecidableEq for Except

/-- The value an operation returns to the caller. -/
inductive OpResult where
  | listRes (l : List Row)
  | optRes (o : Option Row)
  | rsRes (s : RowSet Row)
  | excRes (e : Except PyError Row)
  | valRes (v : Except PyError Value)
  | dataRes (d : Dataset)
  | expRes (e : String × Dataset)
  deriving DecidableEq, Repr

/-- Dispatch one operation on a `RowSet` of rows: the result handed to the
caller and the updated state. -/
def RowSet.runOp (s : RowSet Row) : RowSetOp → OpResult × RowSet Row
  | RowSetOp.iterOp => let t := RowSet.iter s; (OpResult.listRes t.1, t.2)
  | RowSetOp.nextOp => let t := RowSet.next s; (OpResult.optRes t.1, t.2)
  | RowSetOp.getItemOp k => let t := RowSet.getItemInt s k; (OpResult.optRes t.1, t.2)
  | RowSetOp.getSliceOp a b =>
      let t := RowSet.getItemSlice s a b; (OpResult.rsRes t.1, t.2)
  | RowSetOp.allOp => let t := RowSet.all s; (OpResult.rsRes t, t)
  | RowSetOp.firstOp => let t := RowSet.first s; (OpResult.optRes t.1, t.2)
  | RowSetOp.oneOp => let t := RowSet.one s; (OpResult.excRes t.1, t.2)
  | RowSetOp.scalarOp => let t := RowSet.scalar s; (OpResult.valRes t.1, t.2)
  | RowSetOp.datasetOp => let t := RowSet.dataset s; (OpResult.dataRes t.1, t.2)
  | RowSetOp.exportOp f => let t := RowSet.export s f; (OpResult.expRes t.1, t.2)

/-- Run a sequence of operations, collecting each operation's result. -/
def RowSet.run (s : RowSet Row) : List RowSetOp → List OpResult × RowSet Row
  | [] => ([], s)
  | op :: ops =>
      let t := RowSet.runOp s op
      let u := RowSet.run t.2 ops
      (t.1 :: u.1, u.2)

/-- A concrete row used to instantiate theorems on sample data. -/
def sampleRow : Row :=
  ⟨["id", "name"], [Value.vint 1, Value.vstr "Tom"], none, none⟩

/-- A concrete row with a birthday column holding a datetime. -/
def sampleRow2 : Row :=
  ⟨["id", "birthday"], [Value.vint 2, Value.vdatetime "1970-01-01T00:00:00"],
    none, none⟩

/-- A concrete database state used to instantiate theorems on sample data. -/
def sampleDb : DatabaseState := ⟨"sqlite://", true⟩

/-- A concrete table used to instantiate theorems on sample data. -/
def sampleTable : Table := ⟨⟨"users", [⟨"id"⟩, ⟨"name"⟩]⟩, sampleDb⟩

/-- Sanity check: each branch of the loop body of `RowSet.fill` is the
corresponding branch of `RowSet.next` (`__getitem__` consumes rows through
`next(self)`). -/
theorem RowSet.fill_eq_next_step {α : Type} (s : RowSet α) (stop : Option Int) :
    RowSet.fill s stop =
      if RowSet.stopCond s stop then
        match RowSet.next s with
        | (none, s1) => s1
        | (some _, s1) => RowSet.fill s1 stop
      else s := by
  obtain ⟨pre, all, p⟩ := s
  cases pre with
  | nil => rw [RowSet.fill]; rfl
  | cons r rs => rw [RowSet.fill]; rfl

/-- The fill loop only moves rows from `_pre_rows` to the back of
`_all_rows`: the concatenation of cache and still-pending rows is unchanged,
the cache never shrinks, and consistency of the `pending` flag (`pending`
false only with nothing left to draw) is preserved. -/
theorem RowSet.fill_spec {α : Type} (stop : Option Int) (p : Bool) :
    ∀ (pre all : List α),
      ((RowSet.fill ⟨pre, all, p⟩ stop)._all_rows
          ++ (RowSet.fill ⟨pre, all, p⟩ stop)._pre_rows = all ++ pre) ∧
      (all.length ≤ (RowSet.fill ⟨pre, all, p⟩ stop)._all_rows.length) ∧
      ((p = false → pre = []) →
        (RowSet.fill ⟨pre, all, p⟩ stop).pending = false →
        (RowSet.fill ⟨pre, all, p⟩ stop)._pre_rows = []) := by
  intro pre
  induction pre with
  | nil =>
      intro all
      rw [RowSet.fill]
      by_cases hc : RowSet.stopCond ⟨[], all, p⟩ stop
      · simp [hc]
      · simp [hc]
  | cons r rs ih =>
      intro all
      rw [RowSet.fill]
      by_cases hc : RowSet.stopCond ⟨r :: rs, all, p⟩ stop
      · have h := ih (all ++ [r])
        simp only [hc, if_true]
        refine ⟨?_, ?_, ?_⟩
        · rw [h.1]
          simp
        · calc all.length ≤ (all ++ [r]).length := by simp
            _ ≤ _ := h.2.1
        · intro hcons
          have hp : p = true := by
            by_contra hptrue
            simp only [Bool.not_eq_true] at hptrue
            exact absurd (hcons hptrue) (by simp)
          exact h.2.2 (by simp [hp])
      · simp only [hc, if_false]
        refine ⟨rfl, le_refl _, ?_⟩
        intro hcons hpend
        exact hcons hpend

/-- Evaluates `self[i]` for a nonnegative index already inside the cache: the
`__getitem__` while-loop makes no progress and the row comes from
`_all_rows` with the state unchanged. -/
theorem RowSet.getItemInt_lt {α : Type} (s : RowSet α) (i : Nat)
    (h : i < s._all_rows.length) :
    RowSet.getItemInt s (i : Int) = (s._all_rows.get? i, s) := by
  have hcond : RowSet.stopCond s (some ((i : Int) + 1)) = false := by
    simp only [RowSet.stopCond, RowSet.len, decide_eq_false_iff_not, Int.not_lt]
    omega
  have hfill : RowSet.fill s (some ((i : Int) + 1)) = s := by
    rw [RowSet.fill, hcond]
    simp
  simp [RowSet.getItemInt, hfill, pyListGet]

/-- Closed form for the `__iter__` loop started at counter `i ≤ len(self)`:
it yields the cached rows from position `i` on, then every still-pending
row, and leaves the RowSet fully drawn with `pending = False`. -/
theorem RowSet.iterFrom_eq {α : Type} :
    ∀ (n : Nat) (s : RowSet α) (i : Nat),
      s._pre_rows.length + (s._all_rows.length - i) ≤ n →
      i ≤ s._all_rows.length →
      RowSet.iterFrom s i =
        (s._all_rows.drop i ++ s._pre_rows,
         ⟨[], s._all_rows ++ s._pre_rows, false⟩) := by
  intro n
  induction n with
  | zero =>
      intro s i hm hi
      obtain ⟨pre, all, p⟩ := s
      dsimp only at hm hi
      have hpre : pre = [] := by
        cases pre with
        | nil => rfl
        | cons a as => simp at hm
      have hieq : i = all.length := by omega
      subst hpre
      rw [RowSet.iterFrom]
      have hnlt : ¬ i < all.length := by omega
      rw [dif_neg hnlt]
      simp [hieq, List.drop_length]
  | succ n ih =>
      intro s i hm hi
      obtain ⟨pre, all, p⟩ := s
      dsimp only at hm hi
      rw [RowSet.iterFrom]
      by_cases hlt : i < all.length
      · have ih1 := ih ⟨pre, all, p⟩ (i + 1) (by dsimp only; omega) (by dsimp only; omega)
        rw [dif_pos hlt]
        simp only [ih1]
        rw [List.drop_eq_getElem_cons hlt, List.cons_append]
        simp only [List.get_eq_getElem]
      · have hieq : i = all.length := by omega
        rw [dif_neg hlt]
        cases pre with
        | nil =>
            simp [hieq, List.drop_length]
        | cons r rs =>
            simp only [List.length_cons] at hm
            have ih1 := ih ⟨rs, all ++ [r], p⟩ (i + 1)
              (by
                dsimp only
                simp only [List.length_append, List.length_cons, List.length_nil]
                omega)
              (by
                dsimp only
                simp only [List.length_append, List.length_cons, List.length_nil]
                omega)
            have hd1 : (all ++ [r]).drop (i + 1) = [] := by
              apply List.drop_eq_nil_of_le
              simp [hieq]
            have hd2 : all.drop i = [] := by
              rw [hieq]
              simp
            simp only [ih1]
            simp [hd1, hd2]

/-- Evaluates `list(self)`: `__iter__` yields the cached rows first and then the
still-pending rows, and leaves the cache holding everything with
`pending = False`. -/
theorem RowSet.iter_eq {α : Type} (s : RowSet α) :
    RowSet.iter s =
      (s._all_rows ++ s._pre_rows, ⟨[], s._all_rows ++ s._pre_rows, false⟩) := by
  have h := RowSet.iterFrom_eq (s._pre_rows.length + s._all_rows.length) s 0
    (by omega) (by omega)
  simpa [RowSet.iter] using h

/-- The RowSet state invariant over the original generator contents `g`:
the cache followed by the rows still to be drawn is exactly `g`, and the
`pending` flag can only be `False` once nothing is left to draw. -/
def RowSet.consistent {α : Type} (g : List α) (s : RowSet α) : Prop :=
  s._all_rows ++ s._pre_rows = g ∧ (s.pending = false → s._pre_rows = [])

theorem RowSet.init_consistent {α : Type} (g : List α) :
    RowSet.consistent g (RowSet.init g) := by
  refine ⟨by simp [RowSet.init], ?_⟩
  simp [RowSet.init]

theorem RowSet.next_preserves {α : Type} {g : List α} {s : RowSet α}
    (h : RowSet.consistent g s) :
    RowSet.consistent g (RowSet.next s).2 ∧
      RowSet.len s ≤ RowSet.len (RowSet.next s).2 := by
  obtain ⟨pre, all, p⟩ := s
  obtain ⟨h1, h2⟩ := h
  dsimp only at h1 h2
  cases pre with
  | nil =>
      refine ⟨⟨by simpa [RowSet.next] using h1, by simp [RowSet.next]⟩, ?_⟩
      simp [RowSet.next, RowSet.len]
  | cons r rs =>
      refine ⟨⟨?_, ?_⟩, ?_⟩
      · simpa [RowSet.next] using h1
      · intro hp
        exact absurd (h2 hp) (by simp)
      · simp [RowSet.next, RowSet.len]

theorem RowSet.fill_preserves {α : Type} {g : List α} (s : RowSet α)
    (stop : Option Int) (h : RowSet.consistent g s) :
    RowSet.consistent g (RowSet.fill s stop) ∧
      RowSet.len s ≤ RowSet.len (RowSet.fill s stop) := by
  obtain ⟨pre, all, p⟩ := s
  obtain ⟨h1, h2⟩ := h
  dsimp only at h1 h2
  have hs := RowSet.fill_spec stop p pre all
  refine ⟨⟨?_, hs.2.2 h2⟩, hs.2.1⟩
  rw [hs.1, h1]

theorem RowSet.iter_preserves {α : Type} {g : List α} (s : RowSet α)
    (h : RowSet.consistent g s) :
    RowSet.consistent g (RowSet.iter s).2 ∧
      RowSet.len s ≤ RowSet.len (RowSet.iter s).2 := by
  rw [RowSet.iter_eq]
  refine ⟨⟨by simpa using h.1, by simp⟩, ?_⟩
  simp [RowSet.len]

theorem RowSet.getItemInt_state {α : Type} (s : RowSet α) (key : Int) :
    (RowSet.getItemInt s key).2 = RowSet.fill s (some (key + 1)) := rfl

theorem RowSet.getItemSlice_state {α : Type} (s : RowSet α) (start stop : Option Int) :
    (RowSet.getItemSlice s start stop).2 = RowSet.fill s stop := rfl

theorem RowSet.scalar_state (s : RowSet Row) :
    (RowSet.scalar s).2 = (RowSet.first s).2 := by
  rcases hf : RowSet.first s with ⟨o, s1⟩
  cases o <;> simp [RowSet.scalar, hf]

theorem RowSet.one_state {α : Type} (s : RowSet α) :
    (RowSet.one s).2 = (if (RowSet.iter s).1.length > 1 then (RowSet.iter s).2
      else (RowSet.first (RowSet.iter s).2).2) := by
  rcases hf : RowSet.first (RowSet.iter s).2 with ⟨o, s2⟩
  cases o <;> simp [RowSet.one, hf] <;> split <;> simp [hf]

theorem RowSet.dataset_state (s : RowSet Row) :
    (RowSet.dataset s).2 = (match (RowSet.getItemInt s 0).1 with
      | none => (RowSet.getItemInt s 0).2
      | some _ => (RowSet.iter (RowSet.getItemInt s 0).2).2) := by
  rcases hf : RowSet.getItemInt s 0 with ⟨o, s1⟩
  cases o <;> simp [RowSet.dataset, hf]

/-- Every single RowSet operation preserves the invariant and can only grow
the cache. -/
theorem RowSet.runOp_preserves {g : List Row} (s : RowSet Row) (op : RowSetOp)
    (h : RowSet.consistent g s) :
    RowSet.consistent g (RowSet.runOp s op).2 ∧
      RowSet.len s ≤ RowSet.len (RowSet.runOp s op).2 := by
  cases op with
  | iterOp => simpa [RowSet.runOp] using RowSet.iter_preserves s h
  | nextOp => simpa [RowSet.runOp] using RowSet.next_preserves h
  | getItemOp k =>
      simpa [RowSet.runOp, RowSet.getItemInt_state] using
        RowSet.fill_preserves s (some (k + 1)) h
  | getSliceOp a b =>
      simpa [RowSet.runOp, RowSet.getItemSlice_state] using
        RowSet.fill_preserves s b h
  | allOp => simpa [RowSet.runOp, RowSet.all] using RowSet.iter_preserves s h
  | firstOp =>
      simpa [RowSet.runOp, RowSet.first, RowSet.getItemInt_state] using
        RowSet.fill_preserves s (some (0 + 1)) h
  | oneOp =>
      have h1 := RowSet.iter_preserves s h
      have h2 := RowSet.fill_preserves (RowSet.iter s).2 (some (0 + 1)) h1.1
      simp only [RowSet.runOp, RowSet.one_state]
      split
      · exact ⟨h1.1, h1.2⟩
      · refine ⟨?_, le_trans h1.2 ?_⟩
        · simpa [RowSet.first, RowSet.getItemInt_state] using h2.1
        · simpa [RowSet.first, RowSet.getItemInt_state] using h2.2
  | scalarOp =>
      have h2 := RowSet.fill_preserves s (some (0 + 1)) h
      simp only [RowSet.runOp, RowSet.scalar_state]
      constructor
      · simpa [RowSet.first, RowSet.getItemInt_state] using h2.1
      · simpa [RowSet.first, RowSet.getItemInt_state] using h2.2
  | datasetOp =>
      have h2 := RowSet.fill_preserves s (some (0 + 1)) h
      have h2c : RowSet.consistent g (RowSet.getItemInt s 0).2 := by
        simpa [RowSet.getItemInt_state] using h2.1
      have h2l : RowSet.len s ≤ RowSet.len (RowSet.getItemInt s 0).2 := by
        simpa [RowSet.getItemInt_state] using h2.2
      have h3 := RowSet.iter_preserves (RowSet.getItemInt s 0).2 h2c
      simp only [RowSet.runOp, RowSet.dataset_state]
      rcases ho : (RowSet.getItemInt s 0).1 with _ | r
      · exact ⟨h2c, h2l⟩
      · exact ⟨h3.1, le_trans h2l h3.2⟩
  | exportOp f =>
      have h2 := RowSet.fill_preserves s (some (0 + 1)) h
      have h2c : RowSet.consistent g (RowSet.getItemInt s 0).2 := by
        simpa [RowSet.getItemInt_state] using h2.1
      have h2l : RowSet.len s ≤ RowSet.len (RowSet.getItemInt s 0).2 := by
        simpa [RowSet.getItemInt_state] using h2.2
      have h3 := RowSet.iter_preserves (RowSet.getItemInt s 0).2 h2c
      have hexp : (RowSet.export s f).2 = (RowSet.dataset s).2 := rfl
      simp only [RowSet.runOp, hexp, RowSet.dataset_state]
      rcases ho : (RowSet.getItemInt s 0).1 with _ | r
      · exact ⟨h2c, h2l⟩
      · exact ⟨h3.1, le_trans h2l h3.2⟩

/-- Running any sequence of operations preserves the invariant and can only
grow the cache. -/
theorem RowSet.run_preserves {g : List Row} :
    ∀ (ops : List RowSetOp) (s : RowSet Row), RowSet.consistent g s →
      RowSet.consistent g (RowSet.run s ops).2 ∧
        RowSet.len s ≤ RowSet.len (RowSet.run s ops).2 := by
  intro ops
  induction ops with
  | nil => intro s h; exact ⟨h, le_refl _⟩
  | cons op rest ih =>
      intro s h
      have h1 := RowSet.runOp_preserves s op h
      have h2 := ih (RowSet.runOp s op).2 h1.1
      exact ⟨h2.1, le_trans h1.2 h2.2⟩

/-- Splitting a run of operations at any point. -/
theorem RowSet.run_append (s : RowSet Row) :
    ∀ (ops1 ops2 : List RowSetOp),
      (RowSet.run s (ops1 ++ ops2)).2 = (RowSet.run (RowSet.run s ops1).2 ops2).2 := by
  intro ops1
  induction ops1 generalizing s with
  | nil => intro ops2; rfl
  | cons op rest ih =>
      intro ops2
      simp only [List.cons_append, RowSet.run]
      exact ih (RowSet.runOp s op).2 ops2

/-- When the guard of the `__getitem__` while-loop fails, nothing happens. -/
theorem RowSet.fill_of_stopCond_false {α : Type} (s : RowSet α) (stop : Option Int)
    (h : RowSet.stopCond s stop = false) : RowSet.fill s stop = s := by
  rw [RowSet.fill]
  simp [h]

/-- One pass of the `__getitem__` while-loop with a row available. -/
theorem RowSet.fill_step {α : Type} (r : α) (rs all : List α) (p : Bool)
    (stop : Option Int)
    (h : RowSet.stopCond ⟨r :: rs, all, p⟩ stop = true) :
    RowSet.fill ⟨r :: rs, all, p⟩ stop = RowSet.fill ⟨rs, all ++ [r], p⟩ stop := by
  rw [RowSet.fill]
  simp [h]

/-- One pass of the `__getitem__` while-loop hitting StopIteration. -/
theorem RowSet.fill_exhausted {α : Type} (all : List α) (p : Bool)
    (stop : Option Int)
    (h : RowSet.stopCond ⟨[], all, p⟩ stop = true) :
    RowSet.fill (⟨[], all, p⟩ : RowSet α) stop = ⟨[], all, false⟩ := by
  rw [RowSet.fill]
  simp [h]

/-- Evaluates `first()` on a freshly created RowSet: the head of the generator, with
at most one row drawn into the cache. -/
theorem RowSet.first_init {α : Type} (g : List α) :
    RowSet.first (RowSet.init g) =
      (g.head?, (match g with
        | [] => (⟨[], [], false⟩ : RowSet α)
        | r :: rs => ⟨rs, [r], true⟩)) := by
  cases g with
  | nil =>
      simp [RowSet.first, RowSet.getItemInt, RowSet.init, RowSet.fill,
        RowSet.stopCond, RowSet.len, pyListGet]
  | cons r rs =>
      simp [RowSet.first, RowSet.getItemInt, RowSet.init, RowSet.fill,
        RowSet.stopCond, RowSet.len, pyListGet]

/-- A consistent state whose cache is at least as long as the generator
contents is fully drawn. -/
theorem RowSet.consistent_full {α : Type} {g : List α} {s : RowSet α}
    (h : RowSet.consistent g s) (hlen : g.length ≤ RowSet.len s) :
    s._all_rows = g ∧ s._pre_rows = [] := by
  have hl := congrArg List.length h.1
  simp only [List.length_append] at hl
  have hpre : s._pre_rows = [] := by
    refine List.length_eq_zero.mp ?_
    simp only [RowSet.len] at hlen
    omega
  refine ⟨?_, hpre⟩
  have hc := h.1
  rw [hpre] at hc
  simpa using hc

/-- Appending rows one by one to a tablib dataset. -/
theorem Dataset.foldl_append_rows : ∀ (l : List Row) (d : Dataset),
    l.foldl (fun acc r => Dataset.append acc (Row.values r true)) d =
      ⟨d.headers, d.rows ++ l.map (fun r => Row.reduce_datetimes r._values)⟩ := by
  intro l
  induction l with
  | nil =>
      intro d
      cases d
      simp
  | cons r rest ih =>
      intro d
      simp only [List.foldl_cons, List.map_cons]
      rw [ih]
      simp [Dataset.append, Row.values]

/-- Embeds `RowSet.dataset` on an empty RowSet: the IndexError path returns the
fresh empty dataset. -/
theorem RowSet.dataset_init_nil :
    RowSet.dataset (RowSet.init ([] : List Row)) = (Dataset.new, ⟨[], [], false⟩) := by
  have h0 : RowSet.getItemInt (RowSet.init ([] : List Row)) 0 = (none, ⟨[], [], false⟩) := by
    simp [RowSet.getItemInt, RowSet.init, RowSet.fill, RowSet.stopCond,
      RowSet.len, pyListGet]
  simp [RowSet.dataset, h0]

/-- Embeds `RowSet.dataset` on a non-empty RowSet: headers from the first row's
keys, one reduced value row per row, in order. -/
theorem RowSet.dataset_init_cons (r : Row) (rest : List Row) :
    (RowSet.dataset (RowSet.init (r :: rest))).1 =
      ⟨some (Row.keys r), (r :: rest).map (fun x => Row.reduce_datetimes x._values)⟩ := by
  have h0 : RowSet.getItemInt (RowSet.init (r :: rest)) 0 =
      (some r, ⟨rest, [r], true⟩) := by
    simp [RowSet.getItemInt, RowSet.init, RowSet.fill, RowSet.stopCond,
      RowSet.len, pyListGet]
  have hitr := RowSet.iter_eq (⟨rest, [r], true⟩ : RowSet Row)
  simp only [RowSet.dataset, h0, hitr]
  rw [Dataset.foldl_append_rows]
  simp [Dataset.setHeaders, Dataset.new, Row.keys]

theorem pyIndex_of_mem {k : String} : ∀ {l : List String}, k ∈ l →
    ∃ i, pyIndex k l = some i := by
  intro l
  induction l with
  | nil => intro h; cases h
  | cons x xs ih =>
      intro h
      by_cases hx : x = k
      · exact ⟨0, by simp [pyIndex, hx]⟩
      · have hmem : k ∈ xs := by
          cases h with
          | head => exact absurd rfl hx
          | tail _ h => exact h
        obtain ⟨i, hi⟩ := ih hmem
        exact ⟨i + 1, by simp [pyIndex, hx, hi]⟩

theorem pyIndex_get? {k : String} : ∀ {l : List String} {i : Nat},
    pyIndex k l = some i → l.get? i = some k := by
  intro l
  induction l with
  | nil => intro i h; simp [pyIndex] at h
  | cons x xs ih =>
      intro i h
      by_cases hx : x = k
      · simp [pyIndex, hx] at h
        subst h
        simp [hx]
      · simp [pyIndex, hx] at h
        obtain ⟨j, hj, hji⟩ := h
        subst hji
        simpa using ih hj

theorem pyCount_eq_zero {k : String} : ∀ {l : List String},
    pyCount k l = 0 ↔ k ∉ l := by
  intro l
  induction l with
  | nil => simp [pyCount]
  | cons x xs ih =>
      by_cases hx : x = k
      · simp [pyCount, hx, ih]
      · simp [pyCount, hx, ih]
        intro h
        exact fun hk => hx hk.symm

theorem pyIndex_of_count_one {k : String} : ∀ {l : List String} {i : Nat},
    pyCount k l = 1 → l.get? i = some k → pyIndex k l = some i := by
  intro l
  induction l with
  | nil => intro i hc hg; simp at hg
  | cons x xs ih =>
      intro i hc hg
      by_cases hx : x = k
      · have hxs : pyCount k xs = 0 := by
          simp [pyCount, hx] at hc
          exact hc
        have hnot : k ∉ xs := pyCount_eq_zero.mp hxs
        cases i with
        | zero => simp [pyIndex, hx]
        | succ j =>
            exfalso
            exact hnot (List.get?_mem (by simpa using hg))
      · cases i with
        | zero =>
            exfalso
            simp at hg
            exact hx hg
        | succ j =>
            have hc' : pyCount k xs = 1 := by
              simp [pyCount, hx] at hc
              exact hc
            have hg' : xs.get? j = some k := by simpa using hg
            simp [pyIndex, hx, ih hc' hg']

theorem zip_get?_spec {β γ : Type} : ∀ (l1 : List β) (l2 : List γ) (i : Nat),
    (l1.zip l2).get? i =
      (l1.get? i).bind (fun a => (l2.get? i).map (fun b => (a, b))) := by
  intro l1
  induction l1 with
  | nil => intro l2 i; cases l2 <;> cases i <;> rfl
  | cons a as ih =>
      intro l2 i
      cases l2 with
      | nil =>
          cases i with
          | zero => rfl
          | succ j => cases h : as.get? j <;> simp [List.zip_nil_right, h]
      | cons b bs =>
          cases i with
          | zero => rfl
          | succ j => exact ih bs j

/-- Index-based `Row.__getitem__` at an in-range nonnegative index. -/
theorem Row.getItem_idx (r : Row) (i : Nat) (v : Value)
    (hv : r._values.get? i = some v) :
    Row.getItem r (RowKey.idx (i : Int)) = Except.ok v := by
  have hv' : r._values[i]? = some v := by
    simpa [List.get?_eq_getElem?] using hv
  simp [Row.getItem, pyListGet, Row.values, hv']

example : (RowSet.iter (RowSet.init [1, 2, 3])).1 = [1, 2, 3] := by
  simp [RowSet.iter, RowSet.iterFrom, RowSet.init]

example : RowSet.iter (RowSet.init [1, 2]) = ([1, 2], ⟨[], [1, 2], false⟩) := by
  simp [RowSet.iter, RowSet.iterFrom, RowSet.init]

example : (RowSet.getItemInt (RowSet.init [5, 6, 7]) 1).1 = some 6 := by
  simp [RowSet.getItemInt, RowSet.fill, RowSet.stopCond, RowSet.len, RowSet.init, pyListGet]

example : RowSet.getItemInt (RowSet.init [5, 6, 7]) 1 =
    (some 6, ⟨[7], [5, 6], true⟩) := by
  simp [RowSet.getItemInt, RowSet.fill, RowSet.stopCond, RowSet.len, RowSet.init, pyListGet]

example : (RowSet.one (RowSet.init [8])).1 = Except.ok 8 := by
  simp [RowSet.one, RowSet.iter, RowSet.iterFrom, RowSet.init, RowSet.first,
    RowSet.getItemInt, RowSet.fill, RowSet.stopCond, RowSet.len, pyListGet]

example : (RowSet.one (RowSet.init [1, 2])).1 =
    Except.error (PyError.valueError "Contains more than one row.") := by
  simp [RowSet.one, RowSet.iter, RowSet.iterFrom, RowSet.init]

example : (RowSet.one (RowSet.init ([] : List Nat))).1 =
    Except.error PyError.indexError := by
  simp [RowSet.one, RowSet.iter, RowSet.iterFrom, RowSet.init, RowSet.first,
    RowSet.getItemInt, RowSet.fill, RowSet.stopCond, RowSet.len, pyListGet]

example : (RowSet.getItemSlice (RowSet.init [0, 1, 2, 3, 4, 5, 6, 7, 8, 9])
    (some 2) (some 7)).1._pre_rows = [2, 3, 4, 5, 6] := by
  simp [RowSet.getItemSlice, RowSet.fill, RowSet.stopCond, RowSet.len, RowSet.init,
    pySliceList, pySliceIndex]

example : Row.getItem ⟨["a", "b"], [Value.vint 1, Value.vint 2], none, none⟩
    (RowKey.name "b") = Except.ok (Value.vint 2) := by rfl

example : Row.getItem ⟨["a", "b", "b"], [Value.vint 1, Value.vint 2, Value.vint 3], none, none⟩
    (RowKey.name "b") = Except.error (PyError.keyErrorMultiple "b") := by rfl

example : Row.get ⟨["a"], [Value.vint 1], none, none⟩ (RowKey.name "z") Value.vnone =
    Except.ok Value.vnone := by rfl

/-- C1: iterating a RowSet over a finite underlying generator yields exactly
the generator's rows in their original order, replaying the rows already
cached in `_all_rows` first and only then drawing new rows, so that
`list(RowSet(g))` equals the list of rows `g` produces. -/
theorem rowset_iter_yields_underlying_rows {α : Type} (g : List α) (s : RowSet α) :
    (RowSet.iter s).1 = s._all_rows ++ s._pre_rows ∧
    (RowSet.iter (RowSet.init g)).1 = g := by
  constructor
  · rw [RowSet.iter_eq]
  · rw [RowSet.iter_eq]
    simp [RowSet.init]

/-- C4: the unimplemented helpers `Row.save`, `Row.delete`, `Table.join` and
`Database.bulk_query` are `pass` stubs: they return None, submit nothing to
the database, and leave every field of the receiver unchanged. -/
theorem stubs_return_none_and_change_nothing (r : Row) (tb : Table)
    (db : DatabaseState) :
    Row.save r = (none, r) ∧ Row.delete r = (none, r) ∧
    Table.join tb = (none, tb) ∧ DatabaseState.bulk_query db = (none, db) :=
  ⟨rfl, rfl, rfl, rfl⟩

/-- C5 evidence: the keyword path of `Table.insert` and the no-argument or
column-argument `Table.select` are pass-throughs to the query builder, but a
string column argument makes `select` raise AttributeError (it evaluates
`'name'.gg`), and the positional path of `insert` raises TypeError (it calls
`Database.execute` with two arguments), IndexError when `args` is empty. -/
theorem table_helpers_passthrough_and_bugs :
    Table.insert sampleTable [] [("id", Value.vint 1)] =
      Except.ok ⟨SqlClause.withValues (SqlClause.insertStmt sampleTable._table)
        [("id", Value.vint 1)]⟩ ∧
    Table.insert sampleTable [Value.vint 1] [] = Except.error PyError.typeError ∧
    Table.insert sampleTable [] [] = Except.error PyError.indexError ∧
    Table.select sampleTable [SelectArg.strArg "name"] =
      Except.error PyError.attributeError ∧
    Table.select sampleTable [] =
      Except.ok (Executor.init sampleTable
        (SqlClause.selectStmt [SelectArg.tableArg sampleTable._table])) ∧
    Table.select sampleTable [SelectArg.colArg ⟨"name"⟩] =
      Except.ok (Executor.init sampleTable
        (SqlClause.selectStmt [SelectArg.colArg ⟨"name"⟩])) ∧
    Table.delete sampleTable [("id", Value.vint 1)] =
      Executor.init sampleTable
        (SqlClause.withValues (SqlClause.deleteStmt sampleTable._table)
          [("id", Value.vint 1)]) ∧
    Table.update sampleTable [("name", Value.vstr "Kat")] =
      Executor.init sampleTable
        (SqlClause.withValues (SqlClause.updateStmt sampleTable._table)
          [("name", Value.vstr "Kat")]) :=
  ⟨rfl, rfl, rfl, rfl, rfl, rfl, rfl, rfl⟩

/-- C6: the wrapper is deterministic and sequential: running the same
sequence of Row/RowSet operations over the same underlying rows (as produced
by `Database.query`) yields identical per-operation results and identical
final states. -/
theorem rowset_runs_deterministic (db : DatabaseState) (keys : List String)
    (rows1 rows2 : List (List Value)) (ops : List RowSetOp)
    (h : rows1 = rows2) :
    RowSet.run (DatabaseState.query db keys rows1) ops =
      RowSet.run (DatabaseState.query db keys rows2) ops ∧
    (∀ (r1 r2 : Row) (key : RowKey) (d : Value), r1 = r2 →
      Row.getItem r1 key = Row.getItem r2 key ∧
      Row.get r1 key d = Row.get r2 key d) := by
  subst h
  refine ⟨rfl, ?_⟩
  intro r1 r2 key d hr
  subst hr
  exact ⟨rfl, rfl⟩

/-- Witness for C6 at concrete data. -/
theorem rowset_runs_deterministic_witness :
    RowSet.run (DatabaseState.query sampleDb ["id"] [[Value.vint 1]])
        [RowSetOp.iterOp] =
      RowSet.run (DatabaseState.query sampleDb ["id"] [[Value.vint 1]])
        [RowSetOp.iterOp] :=
  (rowset_runs_deterministic sampleDb ["id"] [[Value.vint 1]] [[Value.vint 1]]
    [RowSetOp.iterOp] rfl).1

/-- C2: dictionary/tuple-like access on Row: an in-range integer index
returns `values()[i]`; a key occurring exactly once in `keys()` returns the
value at that key's position; key lookup raises KeyError exactly when the
key is absent or duplicated (and integer lookup never raises KeyError); and
`get` returns whatever `__getitem__` returns when it succeeds and the
default exactly when `__getitem__` would raise KeyError. -/
theorem row_getitem_get_spec :
    (∀ (r : Row) (i : Nat) (v : Value), r._values.get? i = some v →
        Row.getItem r (RowKey.idx (i : Int)) = Except.ok v) ∧
    (∀ (r : Row) (k : String) (i : Nat), r._keys.length = r._values.length →
        pyCount k r._keys = 1 → r._keys.get? i = some k →
        ∃ v, r._values.get? i = some v ∧
          Row.getItem r (RowKey.name k) = Except.ok v) ∧
    (∀ (r : Row) (k : String),
        (∃ e, Row.getItem r (RowKey.name k) = Except.error e ∧
            PyError.isKeyError e = true) ↔
          (k ∉ Row.keys r ∨ pyCount k r._keys > 1)) ∧
    (∀ (r : Row) (i : Int) (e : PyError),
        Row.getItem r (RowKey.idx i) = Except.error e →
          PyError.isKeyError e = false) ∧
    (∀ (r : Row) (key : RowKey) (d v : Value),
        Row.getItem r key = Except.ok v → Row.get r key d = Except.ok v) ∧
    (∀ (r : Row) (key : RowKey) (d : Value) (e : PyError),
        Row.getItem r key = Except.error e →
          Row.get r key d =
            (if PyError.isKeyError e then Except.ok d else Except.error e)) := by
  refine ⟨?_, ?_, ?_, ?_, ?_, ?_⟩
  · intro r i v hv
    exact Row.getItem_idx r i v hv
  · intro r k i hlen hcnt hk
    have hmem : k ∈ r._keys := List.get?_mem hk
    have hidx : pyIndex k r._keys = some i := pyIndex_of_count_one hcnt hk
    obtain ⟨hi, -⟩ := List.get?_eq_some.mp hk
    have hi2 : i < r._values.length := hlen ▸ hi
    have hv : r._values.get? i = some (r._values.get ⟨i, hi2⟩) := List.get?_eq_get hi2
    refine ⟨r._values.get ⟨i, hi2⟩, hv, ?_⟩
    have hv' : r._values[i]? = some (r._values.get ⟨i, hi2⟩) := by
      simpa [List.get?_eq_getElem?] using hv
    simp [Row.getItem, Row.keys, Row.values, hmem, hidx, hcnt, pyListGet, hv']
  · intro r k
    constructor
    · rintro ⟨e, he, hke⟩
      by_cases hmem : k ∈ Row.keys r
      · by_cases hcnt : pyCount k r._keys > 1
        · exact Or.inr hcnt
        · exfalso
          have hmem' : k ∈ r._keys := by simpa [Row.keys] using hmem
          obtain ⟨i, hidx⟩ := pyIndex_of_mem hmem'
          have hgi : Row.getItem r (RowKey.name k) =
              (match pyListGet (Row.values r false) (Int.ofNat i) with
                | some v => Except.ok v
                | none => Except.error PyError.indexError) := by
            simp [Row.getItem, Row.keys, hmem', hidx, hcnt]
          rw [hgi] at he
          rcases hv : pyListGet (Row.values r false) (Int.ofNat i) with _ | v <;>
            rw [hv] at he
          · cases he
            simp [PyError.isKeyError] at hke
          · cases he
      · exact Or.inl hmem
    · intro h
      rcases h with hnot | hcnt
      · exact ⟨PyError.keyErrorNoField k, by simp [Row.getItem, hnot], rfl⟩
      · have hmem : k ∈ r._keys := by
          by_contra hn
          have h0 : pyCount k r._keys = 0 := pyCount_eq_zero.mpr hn
          omega
        obtain ⟨i, hidx⟩ := pyIndex_of_mem hmem
        exact ⟨PyError.keyErrorMultiple k,
          by simp [Row.getItem, Row.keys, hmem, hidx, hcnt], rfl⟩
  · intro r i e he
    rcases hv : pyListGet (Row.values r false) i with _ | v
    · simp [Row.getItem, hv] at he
      rw [← he]
      rfl
    · simp [Row.getItem, hv] at he
  · intro r key d v hok
    simp [Row.get, hok]
  · intro r key d e herr
    simp [Row.get, herr]

/-- Witness for C2 at a concrete row. -/
theorem row_getitem_get_spec_witness :
    Row.getItem sampleRow (RowKey.idx ((1 : Nat) : Int)) =
      Except.ok (Value.vstr "Tom") ∧
    (∃ v, sampleRow._values.get? 0 = some v ∧
        Row.getItem sampleRow (RowKey.name "id") = Except.ok v) ∧
    Row.get sampleRow (RowKey.name "id") Value.vnone =
      Except.ok (Value.vint 1) := by
  have h := row_getitem_get_spec
  exact ⟨h.1 sampleRow 1 (Value.vstr "Tom") (by rfl),
    h.2.1 sampleRow "id" 0 (by rfl) (by rfl) (by rfl),
    h.2.2.2.2.1 sampleRow (RowKey.name "id") Value.vnone (Value.vint 1) (by rfl)⟩

/-- C9: a Row always has equally many keys and values: the constructor
assertion rejects unequal lengths; a successfully constructed Row has
`len(row) = len(keys()) = len(values())`; iterating a Row yields one
`(key, value)` pair per position; and `set` keeps the lengths equal. -/
theorem row_keys_values_equal_length :
    (∀ (keys : List String) (values : List Value) (t d : Option String),
        keys.length ≠ values.length → Row.init keys values t d = none) ∧
    (∀ (keys : List String) (values : List Value) (t d : Option String) (r : Row),
        Row.init keys values t d = some r →
          Row.len r = r._keys.length ∧ r._keys.length = r._values.length) ∧
    (∀ (r : Row), r._keys.length = r._values.length →
        (Row.iterPairs r).length = Row.len r) ∧
    (∀ (r : Row) (i : Nat),
        (Row.iterPairs r).get? i =
          (r._keys.get? i).bind (fun k => (r._values.get? i).map (fun v => (k, v)))) ∧
    (∀ (r : Row) (k : String) (v : Value) (r2 : Row),
        r._keys.length = r._values.length → Row.set r k v = Except.ok r2 →
          r2._keys.length = r2._values.length) := by
  refine ⟨?_, ?_, ?_, ?_, ?_⟩
  · intro keys values t d h
    simp [Row.init, h]
  · intro keys values t d r h
    rw [Row.init] at h
    split at h
    · cases h
      exact ⟨rfl, by assumption⟩
    · cases h
  · intro r hlen
    rw [Row.iterPairs, Row.len, List.length_zip r._keys r._values, hlen]
    exact min_self _
  · intro r i
    rw [Row.iterPairs]
    exact zip_get?_spec r._keys r._values i
  · intro r k v r2 hlen hset
    rcases hpi : pyIndex k r._keys with _ | i <;> rw [Row.set, hpi] at hset
    · cases hset
    · cases hset
      simpa using hlen

/-- Witness for C9 at concrete rows. -/
theorem row_keys_values_equal_length_witness :
    Row.init ["a"] [] none none = none ∧
    (Row.iterPairs sampleRow).length = Row.len sampleRow ∧
    (⟨["id", "name"], [Value.vint 9, Value.vstr "Tom"], none, none⟩ : Row)._keys.length =
      (⟨["id", "name"], [Value.vint 9, Value.vstr "Tom"], none, none⟩ : Row)._values.length := by
  have h := row_keys_values_equal_length
  exact ⟨h.1 ["a"] [] none none (by decide),
    h.2.2.1 sampleRow (by rfl),
    h.2.2.2.2 sampleRow "id" (Value.vint 9) _ (by rfl) (by rfl)⟩

/-- C3: `Row.export` hands tablib a one-row dataset with `keys()` as headers
and the datetime-reduced `values()` as its single row; `_reduce_datetimes`
replaces exactly the values that have an `isoformat` method by their
isoformat string; `RowSet.export` hands tablib a dataset headed by the first
row's keys with one reduced value row per row in order, and an empty RowSet
exports the empty dataset with no headers. -/
theorem row_rowset_export_dataset_shape :
    (∀ (r : Row) (format : String),
        Row.export r format =
          (format, ⟨some (Row.keys r), [Row.reduce_datetimes r._values]⟩)) ∧
    (∀ (l : List Value) (i : Nat) (v : Value),
        (Row.reduce_datetimes l).length = l.length ∧
        (l.get? i = some v →
          (Row.reduce_datetimes l).get? i =
            some ((Value.isoformatStr v).elim v Value.vstr))) ∧
    (∀ (format : String),
        RowSet.export (RowSet.init ([] : List Row)) format =
          ((format, Dataset.new), ⟨[], [], false⟩)) ∧
    (∀ (r : Row) (rest : List Row) (format : String),
        (RowSet.export (RowSet.init (r :: rest)) format).1 =
          (format, ⟨some (Row.keys r),
            (r :: rest).map (fun x => Row.reduce_datetimes x._values)⟩)) := by
  refine ⟨?_, ?_, ?_, ?_⟩
  · intro r format
    rfl
  · intro l i v
    constructor
    · simp [Row.reduce_datetimes]
    · intro hv
      simp only [Row.reduce_datetimes, List.get?_map, hv, Option.map_some]
      cases v <;> rfl
  · intro format
    simp [RowSet.export, RowSet.dataset_init_nil]
  · intro r rest format
    have h1 : (RowSet.export (RowSet.init (r :: rest)) format).1 =
        (format, (RowSet.dataset (RowSet.init (r :: rest))).1) := rfl
    rw [h1, RowSet.dataset_init_cons]

/-- Witness for C3 at a concrete datetime value. -/
theorem row_rowset_export_dataset_shape_witness :
    (Row.reduce_datetimes [Value.vdatetime "1970-01-01T00:00:00"]).get? 0 =
      some ((Value.isoformatStr (Value.vdatetime "1970-01-01T00:00:00")).elim
        (Value.vdatetime "1970-01-01T00:00:00") Value.vstr) := by
  have h := row_rowset_export_dataset_shape
  exact (h.2.1 [Value.vdatetime "1970-01-01T00:00:00"] 0
    (Value.vdatetime "1970-01-01T00:00:00")).2 (by rfl)

/-- Evaluates `one()` on a freshly created RowSet: IndexError when empty, the row when
a singleton, ValueError otherwise; the generator is drained in every case. -/
theorem RowSet.one_init {α : Type} (g : List α) :
    RowSet.one (RowSet.init g) =
      ((match g with
        | [] => Except.error PyError.indexError
        | [r] => Except.ok r
        | _ => Except.error (PyError.valueError "Contains more than one row.")),
       ⟨[], g, false⟩) := by
  have hiter : RowSet.iter (RowSet.init g) = (g, ⟨[], g, false⟩) := by
    simpa [RowSet.init] using RowSet.iter_eq (RowSet.init g)
  match g with
  | [] =>
      simp [RowSet.one, hiter, RowSet.first, RowSet.getItemInt, RowSet.fill,
        RowSet.stopCond, RowSet.len, pyListGet]
  | [r] =>
      simp [RowSet.one, hiter, RowSet.first, RowSet.getItemInt, RowSet.fill,
        RowSet.stopCond, RowSet.len, pyListGet]
  | r1 :: r2 :: rest =>
      have h2 : (r1 :: r2 :: rest).length > 1 := by
        simp [List.length_cons]
      simp [RowSet.one, hiter, h2]

/-- C8: `first()` returns the head row and IndexError (`none`) on an empty
RowSet; `one()` returns the unique row, ValueError with more than one row,
IndexError when empty, draining the whole generator in every case;
`scalar()` returns element 0 of the first row of a non-empty RowSet. -/
theorem rowset_first_one_scalar_spec :
    (∀ (α : Type) (g : List α), (RowSet.first (RowSet.init g)).1 = g.head?) ∧
    (∀ (α : Type) (g : List α),
        (RowSet.one (RowSet.init g)).1 = (match g with
          | [] => Except.error PyError.indexError
          | [r] => Except.ok r
          | _ => Except.error (PyError.valueError "Contains more than one row."))) ∧
    (∀ (α : Type) (g : List α),
        (RowSet.one (RowSet.init g)).2._pre_rows = [] ∧
        (RowSet.one (RowSet.init g)).2._all_rows = g) ∧
    (∀ (r : Row) (rest : List Row) (v : Value), r._values.get? 0 = some v →
        (RowSet.scalar (RowSet.init (r :: rest))).1 = Except.ok v) := by
  refine ⟨?_, ?_, ?_, ?_⟩
  · intro α g
    simp [RowSet.first_init]
  · intro α g
    simp [RowSet.one_init]
  · intro α g
    simp [RowSet.one_init]
  · intro r rest v hv
    have hf := RowSet.first_init (r :: rest)
    have hs : RowSet.scalar (RowSet.init (r :: rest)) =
        (Row.getItem r (RowKey.idx 0), ⟨rest, [r], true⟩) := by
      simp [RowSet.scalar, hf]
    rw [hs]
    simpa using Row.getItem_idx r 0 v hv

/-- Witness for C8 at concrete rows. -/
theorem rowset_first_one_scalar_spec_witness :
    (RowSet.first (RowSet.init [sampleRow])).1 = [sampleRow].head? ∧
    (RowSet.scalar (RowSet.init [sampleRow])).1 = Except.ok (Value.vint 1) := by
  have h := rowset_first_one_scalar_spec
  exact ⟨h.1 Row [sampleRow], h.2.2.2 sampleRow [] (Value.vint 1) (by rfl)⟩

/-- C7: after any sequence of RowSet operations starting from a fresh RowSet
over `g`, the cache `_all_rows` is exactly the consumed prefix of `g` (each
row drawn at most once), `len` counts the consumed rows and never decreases,
and once `pending` is `False` the generator is exhausted, `len` equals the
total number of rows, and the cache stays fixed forever. -/
theorem rowset_prefix_cache_invariant (g : List Row) (ops : List RowSetOp) :
    ((RowSet.run (RowSet.init g) ops).2._all_rows
        ++ (RowSet.run (RowSet.init g) ops).2._pre_rows = g) ∧
    ((RowSet.run (RowSet.init g) ops).2._all_rows
        = g.take (RowSet.len (RowSet.run (RowSet.init g) ops).2)) ∧
    (RowSet.len (RowSet.run (RowSet.init g) ops).2
        + (RowSet.run (RowSet.init g) ops).2._pre_rows.length = g.length) ∧
    (∀ ops1 ops2, ops = ops1 ++ ops2 →
        RowSet.len (RowSet.run (RowSet.init g) ops1).2
          ≤ RowSet.len (RowSet.run (RowSet.init g) ops).2) ∧
    ((RowSet.run (RowSet.init g) ops).2.pending = false →
        (RowSet.run (RowSet.init g) ops).2._pre_rows = [] ∧
        RowSet.len (RowSet.run (RowSet.init g) ops).2 = g.length ∧
        (∀ more,
          (RowSet.run (RowSet.run (RowSet.init g) ops).2 more).2._all_rows = g)) := by
  obtain ⟨⟨hcat, hpend⟩, hmono⟩ :=
    RowSet.run_preserves ops (RowSet.init g) (RowSet.init_consistent g)
  refine ⟨hcat, ?_, ?_, ?_, ?_⟩
  · have ht := List.take_left (RowSet.run (RowSet.init g) ops).2._all_rows
      (RowSet.run (RowSet.init g) ops).2._pre_rows
    rw [hcat] at ht
    rw [RowSet.len]
    exact ht.symm
  · have hl := congrArg List.length hcat
    simpa [RowSet.len, List.length_append] using hl
  · intro ops1 ops2 heq
    subst heq
    have h1 := RowSet.run_preserves ops1 (RowSet.init g) (RowSet.init_consistent g)
    have h2 := RowSet.run_preserves ops2 (RowSet.run (RowSet.init g) ops1).2 h1.1
    calc RowSet.len (RowSet.run (RowSet.init g) ops1).2
        ≤ RowSet.len (RowSet.run (RowSet.run (RowSet.init g) ops1).2 ops2).2 := h2.2
      _ = RowSet.len (RowSet.run (RowSet.init g) (ops1 ++ ops2)).2 := by
          rw [RowSet.run_append]
  · intro hp
    have hpre := hpend hp
    have hall : (RowSet.run (RowSet.init g) ops).2._all_rows = g := by
      have hc := hcat
      rw [hpre] at hc
      simpa using hc
    have hlen0 : RowSet.len (RowSet.run (RowSet.init g) ops).2 = g.length := by
      rw [RowSet.len, hall]
    refine ⟨hpre, hlen0, ?_⟩
    intro more
    have h3 := RowSet.run_preserves more (RowSet.run (RowSet.init g) ops).2
      ⟨hcat, hpend⟩
    have hge : g.length ≤
        RowSet.len (RowSet.run (RowSet.run (RowSet.init g) ops).2 more).2 := by
      calc g.length = RowSet.len (RowSet.run (RowSet.init g) ops).2 := hlen0.symm
        _ ≤ _ := h3.2
    exact (RowSet.consistent_full h3.1 hge).1

/-- Witness for C7 at a concrete run. -/
theorem rowset_prefix_cache_invariant_witness :
    ((RowSet.run (RowSet.init [sampleRow]) [RowSetOp.iterOp]).2._all_rows
        ++ (RowSet.run (RowSet.init [sampleRow]) [RowSetOp.iterOp]).2._pre_rows
        = [sampleRow]) ∧
    RowSet.len (RowSet.run (RowSet.init [sampleRow]) []).2
      ≤ RowSet.len (RowSet.run (RowSet.init [sampleRow]) [RowSetOp.iterOp]).2 ∧
    (RowSet.run (RowSet.init [sampleRow]) [RowSetOp.iterOp]).2._pre_rows = [] := by
  have h := rowset_prefix_cache_invariant [sampleRow] [RowSetOp.iterOp]
  have hp : (RowSet.run (RowSet.init [sampleRow]) [RowSetOp.iterOp]).2.pending
      = false := by
    simp [RowSet.run, RowSet.runOp, RowSet.iter, RowSet.iterFrom, RowSet.init]
  exact ⟨h.1, h.2.2.2.1 [] [RowSetOp.iterOp] rfl, (h.2.2.2.2 hp).1⟩
